import Mathlib

/-!
Verification of the tenant-isolated caching layer of the v2-service-files
repository.  The definitions below are a shallow embedding of the Go source:

* database/redis_entcache.go — tenantAwareRedisLevel (buildVersionedKey,
  Add, Get, Del) and createAutoCacheInvalidationHook,
* middleware/cache_middleware.go — GraphQLCacheMiddleware,
* middleware/database_middleware.go — CloseDatabaseClient,
* the database package client constructor (GetConfigFromEnv, NewClient,
  createEntClient) and the server operation-dispatch switch
  (NewGraphQLServer's AroundOperations).

Redis is modelled as a partial map from string keys to stored values; the
go-redis client used by the code is modelled as an abstract record of
replies so that transport failures can be expressed.  Machine integers of
the source are modelled as Int (the version counter is an int64 far from
its bounds).
-/

/-- Value stored in Redis: either a plain string written by SET, or an
integer-encoded counter as maintained by INCR.  Redis stores every value
as a string; the int constructor stands for the decimal encoding of the
counter, and reading it back yields its decimal text. -/
inductive RediVal where
  | str : String → RediVal
  | int : Int → RediVal
deriving DecidableEq

/-- Text of a stored value as returned by a redis GET. -/
def RediVal.text : RediVal → String
  | .str v => v
  | .int n => toString n

/-- The remote key-value store: a partial map from keys to values. -/
abbrev RedisDB := String → Option RediVal

/-- Store with no keys. -/
def emptyDB : RedisDB := fun _ => none

/-- SET: store a value at a key. -/
def RedisDB.update (db : RedisDB) (k : String) (v : RediVal) : RedisDB :=
  fun key => if key = k then some v else db key

/-- DEL: remove a key. -/
def RedisDB.remove (db : RedisDB) (k : String) : RedisDB :=
  fun key => if key = k then none else db key

/-- Reply of a redis read: a value, the distinguished goredis.Nil
"not found" reply, or a transport error carrying its message. -/
inductive Reply (α : Type) where
  | ok : α → Reply α
  | nil : Reply α
  | fail : String → Reply α
deriving DecidableEq

/-- The goredis.Client as seen by the cache level: replies for Get, and
error results (none = success) for Set and Del.  An abstract record lets
the theorems quantify over healthy and failing transports alike. -/
structure RedisClient where
  getR : String → Reply String
  setR : String → String → Int → Option String
  delR : String → Option String

/-- Command issued against the store, recorded so the theorems can speak
about which commands an operation performed. -/
inductive RedisCmd where
  | getCmd : String → RedisCmd
  | setCmd : String → String → Int → RedisCmd
  | delCmd : String → RedisCmd
deriving DecidableEq

/-- Cache mode recorded in the operation context by the middleware:
entcache.NewContext (enabled), entcache.Skip (skip), or neither. -/
inductive CacheMode where
  | untouched
  | enabled
  | skip
deriving DecidableEq

/-- The two handles exposed by the database client: Query() and Mutation(). -/
inductive ClientKind where
  | queryClient
  | mutationClient
deriving DecidableEq

/-- Operation context: the federation tenant id (GetTenantID rendered by
uuid String(), none when absent), the entcache mode, and the ent client
injected by the dispatch layer. -/
structure GoCtx where
  tenant : Option String := none
  cacheMode : CacheMode := .untouched
  entClient : Option ClientKind := none
deriving DecidableEq

/-- Context carrying a tenant. -/
def tenantCtx (t : String) : GoCtx := { tenant := some t }

/-- tenantIDFromContext from redis_entcache.go: the tenant id string, or
the literal "global" when the context carries no tenant. -/
def tenantIDFromContext (ctx : GoCtx) : String :=
  match ctx.tenant with
  | some t => t
  | none => "global"

/-- versionKeyForTenant from redis_entcache.go: pfx ++ tenant:ID:version
(fmt.Sprintf "%stenant:%s:version").  pfx models getCacheKeyPrefix(). -/
def versionKeyForTenant (pfx tenantID : String) : String :=
  pfx ++ "tenant:" ++ tenantID ++ ":version"

/-- The fully-qualified versioned cache key
(fmt.Sprintf "%stenant:%s:v%s:%v" in buildVersionedKey). -/
def versionedKey (pfx tenantID ver key : String) : String :=
  pfx ++ "tenant:" ++ tenantID ++ ":v" ++ ver ++ ":" ++ key

/-- buildVersionedKey from redis_entcache.go: read the tenant version from
the version store; a transport error propagates, the goredis.Nil reply is
replaced by version "0". -/
def buildVersionedKey (client : RedisClient) (pfx : String) (ctx : GoCtx)
    (key : String) : Except String String :=
  match client.getR (versionKeyForTenant pfx (tenantIDFromContext ctx)) with
  | .fail e => .error e
  | .nil => .ok (versionedKey pfx (tenantIDFromContext ctx) "0" key)
  | .ok ver => .ok (versionedKey pfx (tenantIDFromContext ctx) ver key)

/-- An entcache.Entry; its contents are opaque to this layer. -/
structure Entry where
  payload : String
deriving DecidableEq

/-- The entcache binary codec (Entry.MarshalBinary / UnmarshalBinary).
The codec lives in the external ariga.io/entcache package, so it is kept
abstract; both directions may fail. -/
structure EntryCodec where
  marshalBinary : Entry → Except String String
  unmarshalBinary : String → Except String Entry

/-- Errors returned by the cache level: the distinguished
entcache.ErrNotFound sentinel, a transport error carrying the redis error
message unchanged, or a MarshalBinary/UnmarshalBinary failure. -/
inductive CacheError where
  | errNotFound
  | transport : String → CacheError
  | serialization : String → CacheError
deriving DecidableEq

/-- Default TTL applied by Add when the caller passes ttl ≤ 0
(5 * time.Minute, in seconds). -/
def defaultTTLSeconds : Int := 300

/-- Add from redis_entcache.go.  Returns the result together with the
commands issued against the store. -/
def redisAdd (client : RedisClient) (codec : EntryCodec) (pfx : String)
    (ctx : GoCtx) (key : String) (entry : Entry) (ttl : Int) :
    Except CacheError Unit × List RedisCmd :=
  let vkey := versionKeyForTenant pfx (tenantIDFromContext ctx)
  match buildVersionedKey client pfx ctx key with
  | .error e => (.error (.transport e), [.getCmd vkey])
  | .ok versioned =>
    match codec.marshalBinary entry with
    | .error e => (.error (.serialization e), [.getCmd vkey])
    | .ok data =>
      let ttl2 := if ttl ≤ 0 then defaultTTLSeconds else ttl
      match client.setR versioned data ttl2 with
      | some e => (.error (.transport e), [.getCmd vkey, .setCmd versioned data ttl2])
      | none => (.ok (), [.getCmd vkey, .setCmd versioned data ttl2])

/-- Get from redis_entcache.go.  A goredis.Nil reply at the versioned key
becomes entcache.ErrNotFound; deserialization failure is an error. -/
def redisGet (client : RedisClient) (codec : EntryCodec) (pfx : String)
    (ctx : GoCtx) (key : String) :
    Except CacheError Entry × List RedisCmd :=
  let vkey := versionKeyForTenant pfx (tenantIDFromContext ctx)
  match buildVersionedKey client pfx ctx key with
  | .error e => (.error (.transport e), [.getCmd vkey])
  | .ok versioned =>
    match client.getR versioned with
    | .nil => (.error .errNotFound, [.getCmd vkey, .getCmd versioned])
    | .fail e => (.error (.transport e), [.getCmd vkey, .getCmd versioned])
    | .ok data =>
      match codec.unmarshalBinary data with
      | .error e => (.error (.serialization e), [.getCmd vkey, .getCmd versioned])
      | .ok entry => (.ok entry, [.getCmd vkey, .getCmd versioned])

/-- Del from redis_entcache.go. -/
def redisDel (client : RedisClient) (pfx : String) (ctx : GoCtx)
    (key : String) : Except CacheError Unit × List RedisCmd :=
  let vkey := versionKeyForTenant pfx (tenantIDFromContext ctx)
  match buildVersionedKey client pfx ctx key with
  | .error e => (.error (.transport e), [.getCmd vkey])
  | .ok versioned =>
    match client.delR versioned with
    | some e => (.error (.transport e), [.getCmd vkey, .delCmd versioned])
    | none => (.ok (), [.getCmd vkey, .delCmd versioned])

/-- A healthy client backed by a concrete store: GET returns the stored
text or the Nil reply, SET and DEL always succeed. -/
def dbClient (db : RedisDB) : RedisClient :=
  { getR := fun k =>
      match db k with
      | some v => .ok v.text
      | none => .nil
    setR := fun _ _ _ => none
    delR := fun _ => none }

/-- Effect of one issued command on the store. -/
def applyCmd (db : RedisDB) : RedisCmd → RedisDB
  | .getCmd _ => db
  | .setCmd k v _ => db.update k (.str v)
  | .delCmd k => db.remove k

/-- Effect of a command sequence on the store. -/
def applyTrace (db : RedisDB) (cmds : List RedisCmd) : RedisDB :=
  cmds.foldl applyCmd db

/-- Add executed against a healthy store: result plus resulting store. -/
def runAdd (db : RedisDB) (codec : EntryCodec) (pfx : String) (ctx : GoCtx)
    (key : String) (entry : Entry) (ttl : Int) :
    Except CacheError Unit × RedisDB :=
  let r := redisAdd (dbClient db) codec pfx ctx key entry ttl
  (r.1, applyTrace db r.2)

/-- Get executed against a healthy store (Get issues no writes). -/
def runGet (db : RedisDB) (codec : EntryCodec) (pfx : String) (ctx : GoCtx)
    (key : String) : Except CacheError Entry :=
  (redisGet (dbClient db) codec pfx ctx key).1

/-- Version text a healthy store yields while building a key: the stored
text, or "0" when the version key is absent. -/
def storedVersionText : Option RediVal → String
  | none => "0"
  | some v => v.text

/-- The key buildVersionedKey produces over a healthy store. -/
def dbVersionedKey (db : RedisDB) (pfx : String) (ctx : GoCtx)
    (key : String) : String :=
  versionedKey pfx (tenantIDFromContext ctx)
    (storedVersionText (db (versionKeyForTenant pfx (tenantIDFromContext ctx))))
    key

/-- maxCacheVersion from redis_entcache.go. -/
def maxCacheVersion : Int := 100000

/-- Redis INCR: missing key becomes 1, an integer-encoded value is
incremented, a non-integer string is parsed first and yields an error
when the parse fails.  Returns the new value. -/
def redisIncr : Option RediVal → Except String Int
  | none => .ok 1
  | some (.int n) => .ok (n + 1)
  | some (.str v) =>
    match v.toInt? with
    | some n => .ok (n + 1)
    | none => .error "value is not an integer or out of range"

/-- Body of the background goroutine spawned by
createAutoCacheInvalidationHook: INCR the tenant version key (on failure
only log and stop), then, when the new value reaches or exceeds
maxCacheVersion, SET the key back to 0 (stored as the string "0").
The goroutine's effect on the store is modelled as a function of the
store; its timing is outside this model. -/
def invalidationTask (db : RedisDB) (pfx tenantID : String) : RedisDB :=
  let versionKey := versionKeyForTenant pfx tenantID
  match redisIncr (db versionKey) with
  | .error _ => db
  | .ok newVersion =>
    let db2 := db.update versionKey (.int newVersion)
    if newVersion ≥ maxCacheVersion then db2.update versionKey (.str "0")
    else db2

/-- The ent.Op bitmask OpCreate,OpDelete,OpDeleteOne,OpUpdate,OpUpdateOne
(1,2,4,8,16) tested by the hook. -/
def writeOpMask : Nat := 1 ||| 2 ||| 4 ||| 8 ||| 16

/-- ent Op.Is: the operation's bit intersects the mask. -/
def opIs (op mask : Nat) : Bool := op &&& mask != 0

/-- createAutoCacheInvalidationHook from redis_entcache.go, as a function
of the wrapped mutation's outcome: the pair (result, err) returned by
next.Mutate is propagated unchanged; on error no invalidation runs; on
success of a write operation with a tenant in context the background task
(invalidationTask) runs against the store; with no tenant it is skipped. -/
def autoCacheInvalidationHook {α : Type} (pfx : String) (db : RedisDB)
    (ctx : GoCtx) (op : Nat) (result : α) (err : Option String) :
    (α × Option String) × RedisDB :=
  match err with
  | some e => ((result, some e), db)
  | none =>
    if opIs op writeOpMask then
      match ctx.tenant with
      | none => ((result, none), db)
      | some t => ((result, none), invalidationTask db pfx t)
    else ((result, none), db)

/-- database.EnableContextCache (entcache.NewContext). -/
def EnableContextCache (ctx : GoCtx) : GoCtx := { ctx with cacheMode := .enabled }

/-- database.SkipCache (entcache.Skip). -/
def SkipCache (ctx : GoCtx) : GoCtx := { ctx with cacheMode := .skip }

/-- GraphQLCacheMiddleware from middleware/cache_middleware.go: switch on
the operation type (ast.Query, ast.Mutation, ast.Subscription are the
strings "query", "mutation", "subscription"); queries enable the cache
only when a tenant is present, mutations skip it, subscriptions (and the
implicit default) leave the context untouched. -/
def graphQLCacheMiddleware (ctx : GoCtx) (op : String) : GoCtx :=
  match op with
  | "query" =>
    if ctx.tenant.isSome then EnableContextCache ctx else SkipCache ctx
  | "mutation" => SkipCache ctx
  | _ => ctx

/-- Client-selection switch inside NewGraphQLServer's AroundOperations:
queries use db.Query(), mutations and subscriptions use db.Mutation(),
any other operation value falls through to db.Query(). -/
def selectEntClient {α : Type} (dbQuery dbMutation : α) : String → α
  | "query" => dbQuery
  | "mutation" => dbMutation
  | "subscription" => dbMutation
  | _ => dbQuery

/-- The AroundOperations middleware injecting the selected client into the
operation context (ent.NewContext). -/
def aroundOperationSelectClient (ctx : GoCtx) (op : String) : GoCtx :=
  { ctx with entClient := some (selectEntClient .queryClient .mutationClient op) }

/-- strconv.ParseBool: the exact set of accepted literals. -/
def strconvParseBool (s : String) : Option Bool :=
  match s with
  | "1" => some true
  | "t" => some true
  | "T" => some true
  | "TRUE" => some true
  | "true" => some true
  | "True" => some true
  | "0" => some false
  | "f" => some false
  | "F" => some false
  | "FALSE" => some false
  | "false" => some false
  | "False" => some false
  | _ => none

/-- The process environment as seen by os.Getenv: empty string when a
variable is unset. -/
abbrev GoEnv := String → String

/-- The EnableCache computation of GetConfigFromEnv: parse
ENABLE_DB_CACHE discarding the parse error (yielding the zero value
false), then the source's line `if enableCache == false then enableCache
= true` (comment: enable the cache by default). -/
def envEnableCache (env : GoEnv) : Bool :=
  let enableCache := (strconvParseBool (env "ENABLE_DB_CACHE")).getD false
  if enableCache = false then true else enableCache

/-- Driver wired into an ent client by createEntClient: the plain pgx
driver, or the entcache driver with its TTL and whether the
tenant-isolated Redis level was attached. -/
inductive EntDriver where
  | plain : EntDriver
  | cached : Int → Bool → EntDriver
deriving DecidableEq

/-- Driver decision of createEntClient: wrap with entcache exactly when
enableCache is set and the client type is "query". -/
def createEntClientDriver (clientType : String) (enableCache : Bool)
    (cacheTTL : Int) (redisAvailable : Bool) : EntDriver :=
  if enableCache && clientType == "query" then .cached cacheTTL redisAvailable
  else .plain

/-- Cache-relevant part of database.Config. -/
structure DBConfig where
  enableCache : Bool
  cacheTTL : Int
deriving DecidableEq

/-- NewClient builds the query client from the config's cache settings. -/
def newClientQueryDriver (config : DBConfig) (redisAvailable : Bool) : EntDriver :=
  createEntClientDriver "query" config.enableCache config.cacheTTL redisAvailable

/-- NewClient builds the mutation client with enableCache false, ttl 0. -/
def newClientMutationDriver : EntDriver :=
  createEntClientDriver "mutation" false 0 false

/-- CloseDatabaseClient from middleware/database_middleware.go (both the
mutex and the sync.Once variants share this body): when the global handle
is nil return nil without closing; otherwise call Close, keep the handle
and return the error on failure, clear the handle and return nil on
success.  Result: (returned error, new global handle, whether Close ran). -/
def closeDatabaseClient {κ : Type} (closeFn : κ → Option String)
    (globalDBClient : Option κ) : Option String × Option κ × Bool :=
  match globalDBClient with
  | none => (none, none, false)
  | some c =>
    match closeFn c with
    | some e => (some e, some c, true)
    | none => (none, none, true)

/-- Increment sequence: the store after n successful write mutations for
one tenant, each running the invalidation task. -/
def iterInvalidate (db : RedisDB) (pfx tenantID : String) : Nat → RedisDB
  | 0 => db
  | n + 1 => invalidationTask (iterInvalidate db pfx tenantID n) pfx tenantID

/-- A transparent codec used to instantiate the theorems on concrete
inputs: an entry is serialized as its payload. -/
def idCodec : EntryCodec :=
  { marshalBinary := fun e => .ok e.payload
    unmarshalBinary := fun s => .ok ⟨s⟩ }

/-- A codec whose deserializer always fails, modelling a corrupt or
incompatible stored payload. -/
def badCodec : EntryCodec :=
  { marshalBinary := fun e => .ok e.payload
    unmarshalBinary := fun _ => .error "corrupt" }

/-- A client whose transport is down: every command fails. -/
def downClient : RedisClient :=
  { getR := fun _ => .fail "connection refused"
    setR := fun _ _ _ => some "connection refused"
    delR := fun _ => some "connection refused" }

/-! Helper lemmas: parsing a versioned key is unambiguous at its first
colon when the leading segment is colon-free, which is what makes the
tenant segment of a key authoritative (tenant ids are uuid strings or
"global", neither of which contains a colon). -/

lemma colon_split_list (a : List Char) : ∀ (b r s : List Char), ':' ∉ a → ':' ∉ b →
    a ++ ':' :: r = b ++ ':' :: s → a = b ∧ r = s := by
  induction a with
  | nil =>
    intro b r s _ hb h
    cases b with
    | nil =>
      simp only [List.nil_append, List.cons.injEq] at h
      exact ⟨rfl, h.2⟩
    | cons c bs =>
      simp only [List.nil_append, List.cons_append, List.cons.injEq] at h
      rw [← h.1] at hb
      exact absurd (List.mem_cons_self ':' bs) hb
  | cons c as ih =>
    intro b r s ha hb h
    cases b with
    | nil =>
      simp only [List.cons_append, List.nil_append, List.cons.injEq] at h
      rw [h.1] at ha
      exact absurd (List.mem_cons_self ':' as) ha
    | cons c2 bs =>
      simp only [List.cons_append, List.cons.injEq] at h
      have ha2 : ':' ∉ as := fun hm => ha (List.mem_cons_of_mem c hm)
      have hb2 : ':' ∉ bs := fun hm => hb (List.mem_cons_of_mem c2 hm)
      obtain ⟨h1, h2⟩ := ih bs r s ha2 hb2 h.2
      exact ⟨by rw [h.1, h1], h2⟩

lemma versionedKey_data (pfx tid ver key : String) :
    (versionedKey pfx tid ver key).data =
      (pfx ++ "tenant:").data ++ (tid.data ++ ':' :: ('v' :: (ver.data ++ ':' :: key.data))) := by
  simp only [versionedKey, String.data_append, List.append_assoc]
  rfl

lemma versionKeyForTenant_data (pfx tid : String) :
    (versionKeyForTenant pfx tid).data =
      (pfx ++ "tenant:").data ++ (tid.data ++ ':' :: ("version" : String).data) := by
  simp only [versionKeyForTenant, String.data_append, List.append_assoc]

lemma versionedKey_tenant_eq (pfx A B vA vB kA kB : String)
    (hA : ':' ∉ A.data) (hB : ':' ∉ B.data)
    (h : versionedKey pfx A vA kA = versionedKey pfx B vB kB) : A = B := by
  have hd := congrArg String.data h
  rw [versionedKey_data, versionedKey_data] at hd
  have hd2 := List.append_cancel_left hd
  exact String.ext (colon_split_list A.data B.data _ _ hA hB hd2).1

lemma versionedKey_eq_versionKey (pfx A B vA kA : String)
    (hA : ':' ∉ A.data) (hB : ':' ∉ B.data)
    (h : versionedKey pfx A vA kA = versionKeyForTenant pfx B) : A = B := by
  have hd := congrArg String.data h
  rw [versionedKey_data, versionKeyForTenant_data] at hd
  have hd2 := List.append_cancel_left hd
  exact String.ext (colon_split_list A.data B.data _ _ hA hB hd2).1

lemma versionedKey_ne_versionKey_same (pfx T v k : String) :
    versionedKey pfx T v k ≠ versionKeyForTenant pfx T := by
  intro h
  have hd := congrArg String.data h
  rw [versionedKey_data, versionKeyForTenant_data] at hd
  have hd2 := List.append_cancel_left hd
  have hd3 := List.append_cancel_left hd2
  have htail : 'v' :: (v.data ++ ':' :: k.data) = ("version" : String).data := by
    simpa using hd3
  have htail2 : v.data ++ ':' :: k.data = ['e', 'r', 's', 'i', 'o', 'n'] := by
    have : ("version" : String).data = 'v' :: ['e', 'r', 's', 'i', 'o', 'n'] := rfl
    rw [this] at htail
    exact (List.cons.injEq _ _ _ _ ▸ htail).2
  have hmem : ':' ∈ v.data ++ ':' :: k.data :=
    List.mem_append_right _ (List.mem_cons_self ':' k.data)
  rw [htail2] at hmem
  simp at hmem

lemma versionedKey_version_eq (pfx T vA vB kA kB : String)
    (hvA : ':' ∉ vA.data) (hvB : ':' ∉ vB.data)
    (h : versionedKey pfx T vA kA = versionedKey pfx T vB kB) : vA = vB := by
  have hd := congrArg String.data h
  rw [versionedKey_data, versionedKey_data] at hd
  have hd2 := List.append_cancel_left hd
  have hd3 := List.append_cancel_left hd2
  have hd4 : vA.data ++ ':' :: kA.data = vB.data ++ ':' :: kB.data := by
    simpa using hd3
  exact String.ext (colon_split_list vA.data vB.data _ _ hvA hvB hd4).1

/-! Helper lemmas about the operations over a healthy store. -/

lemma update_ne (db : RedisDB) (K q : String) (v : RediVal) (h : q ≠ K) :
    db.update K v q = db q := by
  unfold RedisDB.update
  simp [h]

lemma buildVersionedKey_db (db : RedisDB) (pfx : String) (ctx : GoCtx) (key : String) :
    buildVersionedKey (dbClient db) pfx ctx key = .ok (dbVersionedKey db pfx ctx key) := by
  unfold buildVersionedKey dbVersionedKey storedVersionText dbClient
  cases h : db (versionKeyForTenant pfx (tenantIDFromContext ctx)) <;> simp [h]

lemma runGet_eq (db : RedisDB) (codec : EntryCodec) (pfx : String) (ctx : GoCtx) (key : String) :
    runGet db codec pfx ctx key =
      match db (dbVersionedKey db pfx ctx key) with
      | none => .error .errNotFound
      | some v =>
        match codec.unmarshalBinary v.text with
        | .error e => .error (.serialization e)
        | .ok entry => .ok entry := by
  unfold runGet redisGet
  rw [buildVersionedKey_db]
  cases h : db (dbVersionedKey db pfx ctx key) with
  | none => simp [dbClient, h]
  | some v => cases hc : codec.unmarshalBinary v.text <;> simp [dbClient, h, hc]

lemma runAdd_eq (db : RedisDB) (codec : EntryCodec) (pfx : String) (ctx : GoCtx)
    (key data : String) (entry : Entry) (ttl : Int)
    (hm : codec.marshalBinary entry = .ok data) :
    runAdd db codec pfx ctx key entry ttl =
      (.ok (), db.update (dbVersionedKey db pfx ctx key)
        (.str data)) := by
  unfold runAdd redisAdd
  rw [buildVersionedKey_db, hm]
  simp [dbClient, applyTrace, applyCmd]

lemma runGet_update_ne (db : RedisDB) (codec : EntryCodec) (pfx : String)
    (ctx : GoCtx) (key K : String) (v : RediVal)
    (h1 : K ≠ versionKeyForTenant pfx (tenantIDFromContext ctx))
    (h2 : K ≠ dbVersionedKey db pfx ctx key) :
    runGet (db.update K v) codec pfx ctx key = runGet db codec pfx ctx key := by
  have hver : db.update K v (versionKeyForTenant pfx (tenantIDFromContext ctx))
      = db (versionKeyForTenant pfx (tenantIDFromContext ctx)) :=
    update_ne db K _ v (Ne.symm h1)
  have hkey : dbVersionedKey (db.update K v) pfx ctx key = dbVersionedKey db pfx ctx key := by
    unfold dbVersionedKey
    rw [hver]
  rw [runGet_eq, runGet_eq, hkey, update_ne db K _ v (Ne.symm h2)]

/-! Helper lemmas about the invalidation task and its iteration. -/

lemma invalidationTask_eq (db : RedisDB) (pfx tenantID : String) :
    invalidationTask db pfx tenantID =
      match redisIncr (db (versionKeyForTenant pfx tenantID)) with
      | .error _ => db
      | .ok newVersion =>
        if newVersion ≥ maxCacheVersion then
          ((db.update (versionKeyForTenant pfx tenantID) (.int newVersion)).update
            (versionKeyForTenant pfx tenantID) (.str "0"))
        else db.update (versionKeyForTenant pfx tenantID) (.int newVersion) := rfl

lemma invalidationTask_other (db : RedisDB) (pfx T q : String)
    (hq : q ≠ versionKeyForTenant pfx T) :
    invalidationTask db pfx T q = db q := by
  rw [invalidationTask_eq]
  cases hcase : redisIncr (db (versionKeyForTenant pfx T)) with
  | error e => rfl
  | ok v =>
    by_cases hge : v ≥ maxCacheVersion
    · simp only [if_pos hge]
      rw [update_ne _ _ _ _ hq, update_ne _ _ _ _ hq]
    · simp only [if_neg hge]
      rw [update_ne _ _ _ _ hq]

lemma iterInvalidate_other (db : RedisDB) (pfx T q : String)
    (hq : q ≠ versionKeyForTenant pfx T) :
    ∀ n, iterInvalidate db pfx T n q = db q := by
  intro n
  induction n with
  | zero => rfl
  | succ m ih =>
    have hstep : iterInvalidate db pfx T (m + 1)
        = invalidationTask (iterInvalidate db pfx T m) pfx T := rfl
    rw [hstep, invalidationTask_other _ _ _ _ hq, ih]

lemma iterInvalidate_val (db : RedisDB) (pfx T : String)
    (h0 : db (versionKeyForTenant pfx T) = none) :
    ∀ n : Nat, n ≤ 99999 →
      (iterInvalidate db pfx T n) (versionKeyForTenant pfx T)
        = if n = 0 then none else some (.int (n : Int)) := by
  intro n
  induction n with
  | zero =>
    intro _
    simpa [iterInvalidate] using h0
  | succ m ih =>
    intro hle
    have hv := ih (by omega)
    have hstep : iterInvalidate db pfx T (m + 1)
        = invalidationTask (iterInvalidate db pfx T m) pfx T := rfl
    rw [hstep, invalidationTask_eq, hv]
    by_cases hm0 : m = 0
    · subst hm0
      norm_num [redisIncr, maxCacheVersion, RedisDB.update]
    · rw [if_neg hm0]
      have hlt : ¬ ((m : Int) + 1 ≥ maxCacheVersion) := by
        unfold maxCacheVersion
        omega
      simp only [redisIncr, if_neg hlt]
      simp [RedisDB.update, hm0]

lemma iterInvalidate_wrap (db : RedisDB) (pfx T : String)
    (h0 : db (versionKeyForTenant pfx T) = none) :
    (iterInvalidate db pfx T 100000) (versionKeyForTenant pfx T) = some (.str "0") := by
  have h9 := iterInvalidate_val db pfx T h0 99999 (by norm_num)
  have hstep : iterInvalidate db pfx T 100000
      = invalidationTask (iterInvalidate db pfx T 99999) pfx T := rfl
  rw [hstep, invalidationTask_eq, h9]
  norm_num [redisIncr, maxCacheVersion, RedisDB.update]

/-! Claim theorems. -/

/-- C1: tenant isolation.  An entry stored by Add while the context
carries tenant A is invisible to a Get performed while the context
carries a different tenant B: the Get returns exactly what it would have
returned on the store before the Add, for every logical key, even when
the logical keys coincide as raw strings.  Tenant ids produced by the
federation layer are uuid strings or the literal "global", so they never
contain a colon; that is the colon-freeness hypothesis. -/
theorem tenant_isolation
    (db : RedisDB) (codec codec2 : EntryCodec) (pfx A B kA kB data : String)
    (entry : Entry) (ttl : Int)
    (hA : ':' ∉ A.data) (hB : ':' ∉ B.data) (hAB : A ≠ B)
    (hm : codec.marshalBinary entry = .ok data) :
    (runAdd db codec pfx (tenantCtx A) kA entry ttl).1 = .ok () ∧
    runGet (runAdd db codec pfx (tenantCtx A) kA entry ttl).2 codec2 pfx (tenantCtx B) kB
      = runGet db codec2 pfx (tenantCtx B) kB := by
  rw [runAdd_eq db codec pfx (tenantCtx A) kA data entry ttl hm]
  refine ⟨rfl, ?_⟩
  apply runGet_update_ne
  · have htidA : tenantIDFromContext (tenantCtx A) = A := rfl
    have htidB : tenantIDFromContext (tenantCtx B) = B := rfl
    unfold dbVersionedKey
    rw [htidA, htidB]
    intro h
    exact hAB (versionedKey_eq_versionKey pfx A B _ kA hA hB h)
  · have htidA : tenantIDFromContext (tenantCtx A) = A := rfl
    have htidB : tenantIDFromContext (tenantCtx B) = B := rfl
    unfold dbVersionedKey
    rw [htidA, htidB]
    intro h
    exact hAB (versionedKey_tenant_eq pfx A B _ _ kA kB hA hB h)

/-- C1 witness: concrete instantiation of tenant_isolation. -/
theorem tenant_isolation_witness :
    (runAdd emptyDB idCodec "entcache:v2:service:files:" (tenantCtx "aaaa-1111") "q1"
      ⟨"payload"⟩ 60).1 = .ok () ∧
    runGet (runAdd emptyDB idCodec "entcache:v2:service:files:" (tenantCtx "aaaa-1111") "q1"
        ⟨"payload"⟩ 60).2 idCodec "entcache:v2:service:files:" (tenantCtx "bbbb-2222") "q1"
      = runGet emptyDB idCodec "entcache:v2:service:files:" (tenantCtx "bbbb-2222") "q1" :=
  tenant_isolation emptyDB idCodec idCodec "entcache:v2:service:files:" "aaaa-1111"
    "bbbb-2222" "q1" "q1" "payload" ⟨"payload"⟩ 60 (by decide) (by decide) (by decide) rfl

/-- C2: the key builder.  Over a healthy store the fully-qualified key is
the concatenation pfx tenant tid v version key, with tid the context's
tenant id or the literal "global", and the version read from the version
key pfx tenant tid version; the goredis.Nil "not found" reply yields
version "0" and is not an error. -/
theorem cache_key_builder_spec (db : RedisDB) (pfx key : String) (ctx : GoCtx) :
    buildVersionedKey (dbClient db) pfx ctx key =
      .ok (pfx ++ "tenant:" ++ tenantIDFromContext ctx ++ ":v" ++
        storedVersionText (db (pfx ++ "tenant:" ++ tenantIDFromContext ctx ++ ":version")) ++
        ":" ++ key) ∧
    (ctx.tenant = none → tenantIDFromContext ctx = "global") ∧
    (∀ t, ctx.tenant = some t → tenantIDFromContext ctx = t) ∧
    (∀ client : RedisClient,
      client.getR (versionKeyForTenant pfx (tenantIDFromContext ctx)) = .nil →
      buildVersionedKey client pfx ctx key =
        .ok (versionedKey pfx (tenantIDFromContext ctx) "0" key)) := by
  refine ⟨?_, ?_, ?_, ?_⟩
  · rw [buildVersionedKey_db]
    rfl
  · intro h
    simp [tenantIDFromContext, h]
  · intro t h
    simp [tenantIDFromContext, h]
  · intro client h
    unfold buildVersionedKey
    rw [h]

/-- C2 witness: concrete instantiation of cache_key_builder_spec. -/
theorem cache_key_builder_spec_witness :
    buildVersionedKey (dbClient emptyDB) "entcache:v2:service:files:"
        { tenant := none } "SELECT-users"
      = .ok "entcache:v2:service:files:tenant:global:v0:SELECT-users" ∧
    tenantIDFromContext ({ tenant := none } : GoCtx) = "global" := by
  have h := cache_key_builder_spec emptyDB "entcache:v2:service:files:" "SELECT-users"
    { tenant := none }
  refine ⟨?_, h.2.1 rfl⟩
  rw [h.1]
  rfl

/-- C3 counterexample: starting from an absent (version 0) counter,
performing maxCacheVersion - 1 = 99999 successful increments leaves the
counter at 99999 — the reset to 0 claimed after V_MAX - 1 increments has
not happened (it happens one increment later, when the value reaches the
bound). -/
theorem wrap_at_bound_counterexample :
    (iterInvalidate emptyDB "entcache:v2:service:files:" "tenant-1" 99999)
        (versionKeyForTenant "entcache:v2:service:files:" "tenant-1")
      = some (.int 99999) ∧
    RediVal.int 99999 ≠ RediVal.int 0 ∧ RediVal.int 99999 ≠ RediVal.str "0" := by
  have h := iterInvalidate_val emptyDB "entcache:v2:service:files:" "tenant-1" rfl 99999
    (by norm_num)
  refine ⟨?_, by decide, by decide⟩
  rw [h]
  norm_num

/-- C3 (amended): starting from version 0, maxCacheVersion successful
increments reset the counter to 0 at the bound, and a Get performed
immediately after the reset looks up the version-0 key only: an entry
cached under any pre-reset nonzero version (a colon-free version string
other than "0") survives in the store but is never looked up, and the Get
misses.  Entries cached under version 0 in the previous cycle are outside
this statement; in the running system they are long gone via TTL. -/
theorem wrap_safety_amended
    (db0 : RedisDB) (pfx T kGet kOld vOld : String) (codec : EntryCodec)
    (h0 : db0 (versionKeyForTenant pfx T) = none)
    (hOldv : ':' ∉ vOld.data) (hOld0 : vOld ≠ "0")
    (hpre : db0 (versionedKey pfx T "0" kGet) = none) :
    ((iterInvalidate db0 pfx T maxCacheVersion.toNat) (versionKeyForTenant pfx T)
        = some (.str "0")) ∧
    ((iterInvalidate db0 pfx T maxCacheVersion.toNat) (versionedKey pfx T vOld kOld)
        = db0 (versionedKey pfx T vOld kOld)) ∧
    (versionedKey pfx T "0" kGet ≠ versionedKey pfx T vOld kOld) ∧
    (runGet (iterInvalidate db0 pfx T maxCacheVersion.toNat) codec pfx (tenantCtx T) kGet
        = .error .errNotFound) := by
  have hmax : maxCacheVersion.toNat = 100000 := rfl
  rw [hmax]
  have hw := iterInvalidate_wrap db0 pfx T h0
  have hne : versionedKey pfx T "0" kGet ≠ versionedKey pfx T vOld kOld := by
    intro h
    exact hOld0 (versionedKey_version_eq pfx T "0" vOld kGet kOld (by decide) hOldv h).symm
  refine ⟨hw,
    iterInvalidate_other db0 pfx T _ (versionedKey_ne_versionKey_same pfx T vOld kOld) 100000,
    hne, ?_⟩
  rw [runGet_eq]
  have hvk : dbVersionedKey (iterInvalidate db0 pfx T 100000) pfx (tenantCtx T) kGet
      = versionedKey pfx T "0" kGet := by
    unfold dbVersionedKey
    have htid : tenantIDFromContext (tenantCtx T) = T := rfl
    rw [htid, hw]
    rfl
  rw [hvk]
  have hval : (iterInvalidate db0 pfx T 100000) (versionedKey pfx T "0" kGet) = none := by
    rw [iterInvalidate_other db0 pfx T _ (versionedKey_ne_versionKey_same pfx T "0" kGet)
      100000, hpre]
  rw [hval]

/-- C3 witness: concrete instantiation of wrap_safety_amended, with a
surviving entry cached under the pre-reset version "7". -/
theorem wrap_safety_amended_witness :
    ((iterInvalidate (emptyDB.update (versionedKey "p:" "t1" "7" "q1") (.str "old"))
        "p:" "t1" maxCacheVersion.toNat) (versionKeyForTenant "p:" "t1")
      = some (.str "0")) ∧
    runGet (iterInvalidate (emptyDB.update (versionedKey "p:" "t1" "7" "q1") (.str "old"))
        "p:" "t1" maxCacheVersion.toNat) idCodec "p:" (tenantCtx "t1") "q1"
      = .error .errNotFound := by
  have h := wrap_safety_amended (emptyDB.update (versionedKey "p:" "t1" "7" "q1") (.str "old"))
    "p:" "t1" "q1" "q1" "7" idCodec (by decide) (by decide) (by decide) (by decide)
  exact ⟨h.1, h.2.2.2⟩

/-- C4: invalidation hook pass-through.  The hook returns the wrapped
mutation's (result, error) pair unchanged in every case; when the wrapped
operation fails no version write happens; on success with no tenant in
context invalidation is silently skipped; on success of a write operation
with a tenant the version counter is incremented by the background task
(whose effect on the store is the invalidationTask function; its
asynchrony is outside this model). -/
theorem invalidation_hook_passthrough {α : Type}
    (pfx : String) (db : RedisDB) (ctx : GoCtx) (op : Nat) (result : α)
    (err : Option String) (t : String) (n : Int) :
    ((autoCacheInvalidationHook pfx db ctx op result err).1 = (result, err)) ∧
    (err ≠ none → (autoCacheInvalidationHook pfx db ctx op result err).2 = db) ∧
    (err = none → ctx.tenant = none →
      (autoCacheInvalidationHook pfx db ctx op result err).2 = db) ∧
    (err = none → ctx.tenant = some t → opIs op writeOpMask = true →
      (autoCacheInvalidationHook pfx db ctx op result err).2 = invalidationTask db pfx t) ∧
    (db (versionKeyForTenant pfx t) = some (.int n) → n + 1 < maxCacheVersion →
      invalidationTask db pfx t (versionKeyForTenant pfx t) = some (.int (n + 1))) := by
  refine ⟨?_, ?_, ?_, ?_, ?_⟩
  · cases err with
    | none =>
      unfold autoCacheInvalidationHook
      by_cases hop : opIs op writeOpMask
      · cases htn : ctx.tenant <;> simp [hop, htn]
      · simp [hop]
    | some e => rfl
  · intro hne
    cases err with
    | none => exact absurd rfl hne
    | some e => rfl
  · intro he htn
    subst he
    unfold autoCacheInvalidationHook
    by_cases hop : opIs op writeOpMask <;> simp [hop, htn]
  · intro he htn hop
    subst he
    unfold autoCacheInvalidationHook
    simp [hop, htn]
  · intro hv hlt
    rw [invalidationTask_eq, hv]
    have hnge : ¬ (n + 1 ≥ maxCacheVersion) := not_le.mpr hlt
    simp [redisIncr, hnge, RedisDB.update]

/-- C4 witness: concrete instantiation of invalidation_hook_passthrough:
a successful OpCreate mutation for tenant t9 at version 5 bumps the
version to 6 and returns the mutation's outcome unchanged. -/
theorem invalidation_hook_passthrough_witness :
    ((autoCacheInvalidationHook "p:" (emptyDB.update (versionKeyForTenant "p:" "t9") (.int 5))
        (tenantCtx "t9") 1 (0 : Nat) none).1 = ((0 : Nat), none)) ∧
    ((autoCacheInvalidationHook "p:" (emptyDB.update (versionKeyForTenant "p:" "t9") (.int 5))
        (tenantCtx "t9") 1 (0 : Nat) none).2 (versionKeyForTenant "p:" "t9")
      = some (.int 6)) := by
  have h := invalidation_hook_passthrough "p:"
    (emptyDB.update (versionKeyForTenant "p:" "t9") (.int 5)) (tenantCtx "t9") 1 (0 : Nat)
    none "t9" 5
  refine ⟨h.1, ?_⟩
  rw [h.2.2.2.1 rfl rfl (by decide)]
  have h5 := h.2.2.2.2 (by decide) (by decide)
  rw [h5]
  norm_num

/-- C5: operation-type cache policy.  A query with a tenant enables the
context cache, a query without a tenant skips caching, a mutation skips
caching, and a subscription leaves the context untouched. -/
theorem operation_cache_policy (ctx : GoCtx) :
    (ctx.tenant.isSome = true →
      graphQLCacheMiddleware ctx "query" = EnableContextCache ctx ∧
      (graphQLCacheMiddleware ctx "query").cacheMode = .enabled) ∧
    (ctx.tenant = none →
      graphQLCacheMiddleware ctx "query" = SkipCache ctx ∧
      (graphQLCacheMiddleware ctx "query").cacheMode = .skip) ∧
    ((graphQLCacheMiddleware ctx "mutation").cacheMode = .skip) ∧
    (graphQLCacheMiddleware ctx "subscription" = ctx) := by
  have hq : graphQLCacheMiddleware ctx "query"
      = if ctx.tenant.isSome then EnableContextCache ctx else SkipCache ctx := rfl
  have hm : graphQLCacheMiddleware ctx "mutation" = SkipCache ctx := rfl
  have hs : graphQLCacheMiddleware ctx "subscription" = ctx := rfl
  refine ⟨?_, ?_, ?_, hs⟩
  · intro h
    rw [hq, if_pos h]
    exact ⟨rfl, rfl⟩
  · intro h
    have hfalse : ctx.tenant.isSome = false := by rw [h]; rfl
    rw [hq, if_neg (by simp [hfalse])]
    exact ⟨rfl, rfl⟩
  · rw [hm]
    rfl

/-- C5 witness: concrete instantiation of operation_cache_policy. -/
theorem operation_cache_policy_witness :
    (graphQLCacheMiddleware (tenantCtx "t1") "query").cacheMode = CacheMode.enabled ∧
    (graphQLCacheMiddleware ({} : GoCtx) "query").cacheMode = CacheMode.skip ∧
    (graphQLCacheMiddleware (tenantCtx "t1") "mutation").cacheMode = CacheMode.skip ∧
    graphQLCacheMiddleware (tenantCtx "t1") "subscription" = tenantCtx "t1" :=
  ⟨((operation_cache_policy (tenantCtx "t1")).1 rfl).2,
   ((operation_cache_policy ({} : GoCtx)).2.1 rfl).2,
   (operation_cache_policy (tenantCtx "t1")).2.2.1,
   (operation_cache_policy (tenantCtx "t1")).2.2.2⟩

/-- C6: miss transparency and hard miss on corruption.  Over a healthy
store, Get at a versioned key with no stored value returns the
distinguished errNotFound sentinel (not a transport error and not an
entry); when stored bytes fail to deserialize, Get returns the
deserialization error and no entry. -/
theorem get_miss_transparency (db : RedisDB) (codec : EntryCodec) (pfx key : String)
    (ctx : GoCtx) :
    (db (dbVersionedKey db pfx ctx key) = none →
      runGet db codec pfx ctx key = .error .errNotFound) ∧
    (∀ v e, db (dbVersionedKey db pfx ctx key) = some v →
      codec.unmarshalBinary v.text = .error e →
      runGet db codec pfx ctx key = .error (.serialization e)) := by
  constructor
  · intro h
    rw [runGet_eq, h]
  · intro v e h hu
    rw [runGet_eq, h]
    dsimp only
    rw [hu]

/-- C6 witness: concrete instantiation of get_miss_transparency: a miss
on the empty store, and a corrupt stored payload. -/
theorem get_miss_transparency_witness :
    runGet emptyDB badCodec "p:" (tenantCtx "t1") "q1" = .error .errNotFound ∧
    runGet (emptyDB.update "p:tenant:t1:v0:q1" (.str "junk")) badCodec "p:"
        (tenantCtx "t1") "q1" = .error (.serialization "corrupt") := by
  constructor
  · exact (get_miss_transparency emptyDB badCodec "p:" "q1" (tenantCtx "t1")).1 rfl
  · exact (get_miss_transparency (emptyDB.update "p:tenant:t1:v0:q1" (.str "junk")) badCodec
      "p:" "q1" (tenantCtx "t1")).2 (.str "junk") "corrupt" (by decide) rfl

/-- C7: version-lookup error propagation with atomicity.  When the
version store lookup fails with a transport error, each of Add, Get and
Del returns that error unchanged and the only command issued is the
version-key lookup itself: no Set, Get or Del reaches the cache store. -/
theorem version_lookup_error_atomicity
    (client : RedisClient) (codec : EntryCodec) (pfx : String) (ctx : GoCtx)
    (key : String) (entry : Entry) (ttl : Int) (e : String)
    (h : client.getR (versionKeyForTenant pfx (tenantIDFromContext ctx)) = .fail e) :
    redisAdd client codec pfx ctx key entry ttl
      = (.error (.transport e),
         [.getCmd (versionKeyForTenant pfx (tenantIDFromContext ctx))]) ∧
    redisGet client codec pfx ctx key
      = (.error (.transport e),
         [.getCmd (versionKeyForTenant pfx (tenantIDFromContext ctx))]) ∧
    redisDel client pfx ctx key
      = (.error (.transport e),
         [.getCmd (versionKeyForTenant pfx (tenantIDFromContext ctx))]) := by
  have hb : buildVersionedKey client pfx ctx key = .error e := by
    unfold buildVersionedKey
    rw [h]
  refine ⟨?_, ?_, ?_⟩
  · unfold redisAdd
    rw [hb]
  · unfold redisGet
    rw [hb]
  · unfold redisDel
    rw [hb]

/-- C7 witness: concrete instantiation of version_lookup_error_atomicity
with a client whose transport is down. -/
theorem version_lookup_error_atomicity_witness :
    redisGet downClient idCodec "p:" (tenantCtx "t1") "q1"
      = (.error (.transport "connection refused"),
         [.getCmd (versionKeyForTenant "p:" (tenantIDFromContext (tenantCtx "t1")))]) ∧
    redisDel downClient "p:" (tenantCtx "t1") "q1"
      = (.error (.transport "connection refused"),
         [.getCmd (versionKeyForTenant "p:" (tenantIDFromContext (tenantCtx "t1")))]) := by
  have h := version_lookup_error_atomicity downClient idCodec "p:" (tenantCtx "t1") "q1"
    ⟨"x"⟩ 60 "connection refused" rfl
  exact ⟨h.2.1, h.2.2⟩

/-- C8: dual-client routing.  The dispatch middleware injects the Query()
handle for queries and the Mutation() handle for mutations and
subscriptions. -/
theorem dual_client_routing (ctx : GoCtx) :
    ((aroundOperationSelectClient ctx "query").entClient = some .queryClient) ∧
    ((aroundOperationSelectClient ctx "mutation").entClient = some .mutationClient) ∧
    ((aroundOperationSelectClient ctx "subscription").entClient = some .mutationClient) :=
  ⟨rfl, rfl, rfl⟩

/-- C9: the ENABLE_DB_CACHE toggle cannot disable caching.  The literal
"false" parses to the disabled value, yet GetConfigFromEnv forces
EnableCache to true, so the query client built from that config carries
the caching driver; the enableCache parameter itself, when false, does
yield an uncached driver, which is what the claim expected of the
environment toggle. -/
theorem enable_cache_toggle_ineffective :
    strconvParseBool "false" = some false ∧
    envEnableCache (fun k => if k = "ENABLE_DB_CACHE" then "false" else "") = true ∧
    newClientQueryDriver
        { enableCache :=
            envEnableCache (fun k => if k = "ENABLE_DB_CACHE" then "false" else "")
          cacheTTL := 300 } true
      = EntDriver.cached 300 true ∧
    createEntClientDriver "query" false 300 true = EntDriver.plain :=
  ⟨rfl, rfl, rfl, rfl⟩

/-- C10: CloseDatabaseClient idempotence.  A call that successfully
closes the client clears the global handle, so every later call performs
no close on the underlying connections and returns nil. -/
theorem close_database_client_idempotent {κ : Type}
    (closeFn closeFn2 : κ → Option String) (c : κ) (h : closeFn c = none) :
    closeDatabaseClient closeFn (some c) = (none, none, true) ∧
    closeDatabaseClient closeFn2 none = (none, none, false) := by
  constructor
  · unfold closeDatabaseClient
    dsimp only
    rw [h]
  · rfl

/-- C10 witness: concrete instantiation of
close_database_client_idempotent, with a second closer that would fail if
it were ever invoked. -/
theorem close_database_client_idempotent_witness :
    closeDatabaseClient (fun _ : Nat => none) (some 7) = (none, none, true) ∧
    closeDatabaseClient (fun _ : Nat => some "already closed") none = (none, none, false) :=
  close_database_client_idempotent (fun _ : Nat => none) (fun _ => some "already closed") 7 rfl
